import Mathlib

/-
Verification of the interactive 3D rendering and scene-interaction engine
of the GeoMind geometry visualizer (src/components/GeometryCanvas.tsx).

The embedding is shallow: numbers are real numbers, the React state updates
become pure functions on an explicit state record, and the canvas draw pass
is modelled as the list of drawing commands it emits.
-/

namespace GeoMind

/-- A 3D scene point, as in src/types.ts (`Point3D`). -/
structure Point3D where
  id : String
  x : ℝ
  y : ℝ
  z : ℝ
  label : Option String := none

/-- A line segment between two point ids, as in src/types.ts (`LineSegment`). -/
structure LineSegment where
  sourceId : String
  targetId : String
  dashed : Bool

/-- A scene: points plus segments, as in src/types.ts (`GeometryScene`). -/
structure GeometryScene where
  points : List Point3D
  segments : List LineSegment

/-- The camera rotation state `{x, y}` in radians (GeometryCanvas.tsx line 197). -/
structure Rotation where
  x : ℝ
  y : ℝ

/-- The record returned by `project` (GeometryCanvas.tsx lines 229-234). -/
structure Projected where
  x : ℝ
  y : ℝ
  scale : ℝ
  zIndex : ℝ

/-- The projection pipeline `project` of GeometryCanvas.tsx lines 212-235:
rotate around Y, then around X, then weak perspective with camera distance 4,
then map to screen space with the Y axis inverted. -/
noncomputable def project (rotation : Rotation) (scale : ℝ) (point : Point3D)
    (width height : ℝ) : Projected :=
  let x := point.x * Real.cos rotation.y - point.z * Real.sin rotation.y
  let z := point.x * Real.sin rotation.y + point.z * Real.cos rotation.y
  let y := point.y
  let yNew := y * Real.cos rotation.x - z * Real.sin rotation.x
  let zNew := y * Real.sin rotation.x + z * Real.cos rotation.x
  let d : ℝ := 4
  let factor := scale / (d - zNew * 0.1)
  { x := x * factor + width / 2
    y := -yNew * factor + height / 2
    scale := factor
    zIndex := zNew }

/-- A standard 2D rotation of the pair `(a, b)` by angle `θ`:
`(a cos θ - b sin θ, a sin θ + b cos θ)`. Used to state the spec's description
of the projection pipeline. -/
noncomputable def rot2 (θ a b : ℝ) : ℝ × ℝ :=
  (a * Real.cos θ - b * Real.sin θ, a * Real.sin θ + b * Real.cos θ)

/-- The projection pipeline as the spec words it (spec steps 1-5): rotate the
point around the Y axis by `rotationY` (2D rotation in the X-Z plane), then
around the X axis by `rotationX` (2D rotation in the Y-Z plane using the
already Y-rotated z), compute `factor = scale / (4 - z * 0.1)` with the rotated
z, and return `screenX = x * factor + width/2`, `screenY = -y * factor +
height/2`, with the rotated z as depth. Stated independently of `project` to be
compared with it. -/
noncomputable def specProject (rotation : Rotation) (scale : ℝ) (point : Point3D)
    (width height : ℝ) : Projected :=
  let xz := rot2 rotation.y point.x point.z
  let yz := rot2 rotation.x point.y xz.2
  let factor := scale / (4 - yz.2 * 0.1)
  { x := xz.1 * factor + width / 2
    y := -yz.1 * factor + height / 2
    scale := factor
    zIndex := yz.2 }

/-- Claim C1: `project` performs exactly the spec's pipeline (rotate around Y,
then around X, weak perspective `factor = scale / (4 - z * 0.1)`, screen mapping
with inverted Y and the rotated z as depth), and it is pure: the same inputs
always produce the same outputs. -/
theorem project_matches_spec_and_pure (rotation : Rotation) (scale : ℝ)
    (point : Point3D) (width height : ℝ)
    (rotation' : Rotation) (scale' : ℝ) (point' : Point3D) (width' height' : ℝ)
    (hr : rotation' = rotation) (hs : scale' = scale) (hp : point' = point)
    (hw : width' = width) (hh : height' = height) :
    project rotation scale point width height =
      specProject rotation scale point width height ∧
    project rotation' scale' point' width' height' =
      project rotation scale point width height := by
  subst hr hs hp hw hh
  exact ⟨rfl, rfl⟩

/-- Witness for C1 at concrete inputs. -/
theorem project_matches_spec_and_pure_witness :
    project ⟨0, 0⟩ 100 ⟨"P", 1, 2, 3, none⟩ 800 600 =
      specProject ⟨0, 0⟩ 100 ⟨"P", 1, 2, 3, none⟩ 800 600 ∧
    project ⟨0, 0⟩ 100 ⟨"P", 1, 2, 3, none⟩ 800 600 =
      project ⟨0, 0⟩ 100 ⟨"P", 1, 2, 3, none⟩ 800 600 :=
  project_matches_spec_and_pure ⟨0, 0⟩ 100 ⟨"P", 1, 2, 3, none⟩ 800 600
    ⟨0, 0⟩ 100 ⟨"P", 1, 2, 3, none⟩ 800 600 rfl rfl rfl rfl rfl

/-- Claim C4: for every rotation pair, zoom scale and viewport size, projecting
the origin point `(0,0,0)` yields exactly the viewport center `(width/2, height/2)`. -/
theorem project_origin_center (rotation : Rotation) (scale : ℝ)
    (i : String) (l : Option String) (width height : ℝ) :
    (project rotation scale ⟨i, 0, 0, 0, l⟩ width height).x = width / 2 ∧
    (project rotation scale ⟨i, 0, 0, 0, l⟩ width height).y = height / 2 := by
  simp [project]

/-- One wheel event (GeometryCanvas.tsx line 623):
`scale := max(20, min(500, scale - deltaY * 0.1))`. -/
noncomputable def handleWheel (prev deltaY : ℝ) : ℝ :=
  max 20 (min 500 (prev - deltaY * 0.1))

/-- The camera scale after a sequence of wheel events, starting from the
initial scale 100 (GeometryCanvas.tsx line 198). -/
noncomputable def scaleAfter (deltas : List ℝ) : ℝ :=
  deltas.foldl handleWheel 100

lemma handleWheel_bounds (prev d : ℝ) :
    20 ≤ handleWheel prev d ∧ handleWheel prev d ≤ 500 :=
  ⟨le_max_left _ _, max_le (by norm_num) (min_le_left _ _)⟩

lemma foldl_handleWheel_bounds (deltas : List ℝ) (s : ℝ)
    (h20 : 20 ≤ s) (h500 : s ≤ 500) :
    20 ≤ deltas.foldl handleWheel s ∧ deltas.foldl handleWheel s ≤ 500 := by
  induction deltas generalizing s with
  | nil => exact ⟨h20, h500⟩
  | cons d ds ih =>
      simpa using ih (handleWheel s d) (handleWheel_bounds s d).1
        (handleWheel_bounds s d).2

/-- Claim C2: starting from the initial scale of 100, after any finite sequence
of wheel events (each one clamping `scale - deltaY * 0.1` to `[20, 500]`), the
camera scale always lies within `[20, 500]`. -/
theorem scale_always_clamped (deltas : List ℝ) :
    20 ≤ scaleAfter deltas ∧ scaleAfter deltas ≤ 500 :=
  foldl_handleWheel_bounds deltas 100 (by norm_num) (by norm_num)

/-- The measurement-pair update performed when a point is clicked in
measurement mode (GeometryCanvas.tsx lines 604-610): a pair of 2 resets to the
new id, a duplicate click is a no-op, otherwise the id is appended. -/
def updateMeasurePoints (closestId : String) (prev : List String) : List String :=
  if prev.length = 2 then [closestId]
  else if closestId ∈ prev then prev
  else prev ++ [closestId]

lemma updateMeasurePoints_length_le (i : String) (prev : List String)
    (h : prev.length ≤ 2) : (updateMeasurePoints i prev).length ≤ 2 := by
  unfold updateMeasurePoints
  split
  · simp
  · split
    · omega
    · simp; omega

lemma foldl_updateMeasurePoints_length_le (clicks : List String)
    (acc : List String) (h : acc.length ≤ 2) :
    (clicks.foldl (fun a j => updateMeasurePoints j a) acc).length ≤ 2 := by
  induction clicks generalizing acc with
  | nil => exact h
  | cons c cs ih => simpa using ih _ (updateMeasurePoints_length_le c acc h)

/-- Claim C3: the measurement-mode click update resets a full pair to the
singleton of the new id, is a no-op on a duplicate, otherwise appends; hence
starting from the empty pair any click sequence keeps at most 2 elements, and
three successive clicks on distinct points A, B, C progress
`[] -> [A] -> [A,B] -> [C]`. -/
theorem measure_pair_update (i A B C : String) (prev : List String)
    (clicks : List String) (hAB : A ≠ B) :
    (prev.length = 2 → updateMeasurePoints i prev = [i]) ∧
    (prev.length ≠ 2 → i ∈ prev → updateMeasurePoints i prev = prev) ∧
    (prev.length ≠ 2 → i ∉ prev → updateMeasurePoints i prev = prev ++ [i]) ∧
    (clicks.foldl (fun a j => updateMeasurePoints j a) []).length ≤ 2 ∧
    updateMeasurePoints A [] = [A] ∧
    updateMeasurePoints B [A] = [A, B] ∧
    updateMeasurePoints C [A, B] = [C] := by
  refine ⟨?_, ?_, ?_, ?_, ?_, ?_, ?_⟩
  · intro h; simp [updateMeasurePoints, h]
  · intro h hm; simp [updateMeasurePoints, h, hm]
  · intro h hm; simp [updateMeasurePoints, h, hm]
  · exact foldl_updateMeasurePoints_length_le clicks [] (by simp)
  · simp [updateMeasurePoints]
  · simp [updateMeasurePoints, Ne.symm hAB]
  · simp [updateMeasurePoints]

/-- Witness for C3 at concrete inputs: three distinct clicks roll over. -/
theorem measure_pair_update_witness :
    updateMeasurePoints "A" [] = ["A"] ∧
    updateMeasurePoints "B" ["A"] = ["A", "B"] ∧
    updateMeasurePoints "C" ["A", "B"] = ["C"] :=
  (measure_pair_update "X" "A" "B" "C" [] [] (by decide)).2.2.2.2

/-- The 3D Euclidean distance `getDistance` of GeometryCanvas.tsx lines
237-243, computed on the original world coordinates. -/
noncomputable def getDistance (p1 p2 : Point3D) : ℝ :=
  Real.sqrt ((p2.x - p1.x) ^ 2 + (p2.y - p1.y) ^ 2 + (p2.z - p1.z) ^ 2)

/-- Two-decimal rendering of a real number. Modelled from the spec: it stands
for JavaScript's `Number.prototype.toFixed(2)` (called at GeometryCanvas.tsx
line 386), which is not part of the repository; faithful for the nonnegative
values the badge displays (round to the nearest hundredth, then print with
exactly two decimals). -/
noncomputable def toFixed2 (r : ℝ) : String :=
  let n : ℤ := ⌊r * 100 + 1 / 2⌋
  let whole := n / 100
  let frac := n % 100
  toString whole ++ "." ++ (if frac < 10 then "0" ++ toString frac else toString frac)

/-- First scene point with the given id, as JavaScript `Array.prototype.find`
(GeometryCanvas.tsx lines 366-367). -/
def findPoint (pts : List Point3D) (i : String) : Option Point3D :=
  pts.find? (fun p => p.id = i)

/-- The text of the measurement badge the draw pass renders (GeometryCanvas.tsx
lines 364-406): present exactly when both measurement ids resolve to scene
points, and equal to the two-decimal rendering of their world-coordinate
distance. The camera arguments are those `draw` has in scope; the text does not
use them. -/
noncomputable def measurementBadgeText (scene : GeometryScene) (_rotation : Rotation)
    (_scale : ℝ) (measurePoints : List String) : Option String :=
  match measurePoints with
  | i1 :: i2 :: _ =>
      match findPoint scene.points i1, findPoint scene.points i2 with
      | some p1, some p2 => some (toFixed2 (getDistance p1 p2))
      | _, _ => none
  | _ => none

lemma getDistance_A_B_eq_five :
    getDistance ⟨"A", 0, 0, 0, none⟩ ⟨"B", 3, 4, 0, none⟩ = 5 := by
  unfold getDistance
  have h : ((3 : ℝ) - 0) ^ 2 + ((4 : ℝ) - 0) ^ 2 + ((0 : ℝ) - 0) ^ 2 = 5 ^ 2 := by
    norm_num
  simp only [h]
  exact Real.sqrt_sq (by norm_num)

/-- Claim C5: the measurement distance is the 3D Euclidean distance on the
original world coordinates, the badge text is therefore identical across any
two camera states, and for A = (0,0,0), B = (3,4,0) the two-decimal rendering
is always "5.00". -/
theorem measurement_distance_invariant (p1 p2 : Point3D) (scene : GeometryScene)
    (rot1 rot2 : Rotation) (s1 s2 : ℝ) (mp : List String) :
    getDistance p1 p2 =
      Real.sqrt ((p2.x - p1.x) ^ 2 + (p2.y - p1.y) ^ 2 + (p2.z - p1.z) ^ 2) ∧
    measurementBadgeText scene rot1 s1 mp = measurementBadgeText scene rot2 s2 mp ∧
    toFixed2 (getDistance ⟨"A", 0, 0, 0, none⟩ ⟨"B", 3, 4, 0, none⟩) = "5.00" := by
  refine ⟨rfl, rfl, ?_⟩
  rw [getDistance_A_B_eq_five]
  unfold toFixed2
  have hfloor : ⌊(5 : ℝ) * 100 + 1 / 2⌋ = 500 := by
    rw [Int.floor_eq_iff]
    norm_num
  simp only [hfloor]
  rfl

/-- The selection-related UI state of the canvas component: measurement-mode
flag, detail selection, measurement pair (GeometryCanvas.tsx lines 203-207). -/
structure UIState where
  isMeasurementMode : Bool
  selectedPointId : Option String
  measurePoints : List String
deriving DecidableEq

/-- The initial selection state: select mode, nothing selected, empty pair. -/
def initialUIState : UIState := ⟨false, none, []⟩

/-- The selection-affecting events: a canvas click carrying its hit-test
outcome, the Measure Distance button, the Select Mode button. -/
inductive UIEvent where
  | click (hit : Option String)
  | toggleMeasure
  | selectMode
deriving DecidableEq

/-- The state update each event performs: a click on a point updates the
measurement pair in measurement mode or the detail selection otherwise, an
empty-space click clears the selection only in select mode (lines 602-619);
`toggleMeasurementMode` flips the flag, resets the pair, and clears the
selection when entering measurement mode (lines 626-633); the Select Mode
button clears everything (lines 666-670). -/
def stepUI (s : UIState) : UIEvent → UIState
  | .click (some i) =>
      if s.isMeasurementMode then
        { s with measurePoints := updateMeasurePoints i s.measurePoints }
      else
        { s with selectedPointId := some i }
  | .click none =>
      if s.isMeasurementMode then s else { s with selectedPointId := none }
  | .toggleMeasure =>
      let newMode := !s.isMeasurementMode
      { isMeasurementMode := newMode
        selectedPointId := if newMode then none else s.selectedPointId
        measurePoints := [] }
  | .selectMode => ⟨false, none, []⟩

/-- The selection state after a sequence of events from the initial state. -/
def runUI (evs : List UIEvent) : UIState := evs.foldl stepUI initialUIState

/-- The mode-exclusivity invariant: in measurement mode nothing is
detail-selected, and outside measurement mode the measurement pair is empty. -/
def uiInv (s : UIState) : Prop :=
  (s.isMeasurementMode = true → s.selectedPointId = none) ∧
  (s.isMeasurementMode = false → s.measurePoints = [])

lemma uiInv_step (s : UIState) (e : UIEvent) (h : uiInv s) : uiInv (stepUI s e) := by
  obtain ⟨h1, h2⟩ := h
  cases e with
  | click hit =>
      cases hit <;> by_cases hm : s.isMeasurementMode <;>
        simp_all [stepUI, uiInv]
  | toggleMeasure =>
      by_cases hm : s.isMeasurementMode <;> simp_all [stepUI, uiInv]
  | selectMode => simp [stepUI, uiInv]

lemma uiInv_foldl (evs : List UIEvent) (s : UIState) (h : uiInv s) :
    uiInv (evs.foldl stepUI s) := by
  induction evs generalizing s with
  | nil => exact h
  | cons e es ih => simpa using ih (stepUI s e) (uiInv_step s e h)

lemma uiInv_runUI (evs : List UIEvent) : uiInv (runUI evs) :=
  uiInv_foldl evs initialUIState (by simp [initialUIState, uiInv])

/-- Claim C6: toggling measurement mode on while a point is detail-selected
clears that selection, toggling always resets the measurement pair, the Select
Mode button clears both, and in every state reachable from the initial one a
non-null detail selection and a non-empty measurement pair never coexist. -/
theorem mode_toggle_exclusivity (s : UIState) (evs : List UIEvent) :
    (s.isMeasurementMode = false →
      (stepUI s .toggleMeasure).selectedPointId = none) ∧
    (stepUI s .toggleMeasure).measurePoints = [] ∧
    (stepUI s .selectMode).selectedPointId = none ∧
    (stepUI s .selectMode).measurePoints = [] ∧
    ((runUI evs).selectedPointId ≠ none → (runUI evs).measurePoints = []) := by
  refine ⟨?_, rfl, rfl, rfl, ?_⟩
  · intro hm; simp [stepUI, hm]
  · intro hsel
    obtain ⟨h1, h2⟩ := uiInv_runUI evs
    cases hmode : (runUI evs).isMeasurementMode with
    | false => exact h2 hmode
    | true => exact absurd (h1 hmode) hsel

/-- Witness for C6: toggling measurement mode on from select mode with point
"A" selected clears the selection. -/
theorem mode_toggle_exclusivity_witness :
    (stepUI ⟨false, some "A", []⟩ .toggleMeasure).selectedPointId = none :=
  (mode_toggle_exclusivity ⟨false, some "A", []⟩ []).1 rfl

/-- Lookup in the per-frame `projectedPoints` map (GeometryCanvas.tsx lines
334-338): the map is filled by iterating over the scene points and setting each
id, so a later point with the same id overwrites an earlier one. -/
def findPointLast (pts : List Point3D) (i : String) : Option Point3D :=
  pts.foldl (fun acc p => if p.id = i then some p else acc) none

lemma findPointLast_foldl_none (pts : List Point3D) (i : String)
    (acc : Option Point3D) :
    pts.foldl (fun a p => if p.id = i then some p else a) acc = none ↔
      acc = none ∧ ∀ p ∈ pts, p.id ≠ i := by
  induction pts generalizing acc with
  | nil => simp
  | cons q qs ih =>
      by_cases hq : q.id = i
      · simp only [List.foldl_cons, hq, if_pos rfl, ih]
        simp [hq]
      · simp only [List.foldl_cons, if_neg hq, ih]
        constructor
        · rintro ⟨ha, hall⟩; exact ⟨ha, by simpa [hq] using hall⟩
        · rintro ⟨ha, hall⟩; exact ⟨ha, fun p hp => hall p (by simp [hp])⟩

lemma findPointLast_eq_none_iff (pts : List Point3D) (i : String) :
    findPointLast pts i = none ↔ ∀ p ∈ pts, p.id ≠ i := by
  unfold findPointLast
  rw [findPointLast_foldl_none]
  simp

/-- A line emitted by the segment-drawing layer: the two projected endpoint
positions and the dash style. -/
structure DrawnLine where
  x1 : ℝ
  y1 : ℝ
  x2 : ℝ
  y2 : ℝ
  dashed : Bool

/-- The lines the segment layer of `draw` emits (GeometryCanvas.tsx lines
341-362): for each segment both endpoint ids are looked up in the projected
map; if either is missing the segment is skipped, otherwise one line is drawn
between the projections. -/
noncomputable def segmentLines (scene : GeometryScene) (rotation : Rotation)
    (scale width height : ℝ) : List DrawnLine :=
  scene.segments.filterMap (fun seg =>
    match findPointLast scene.points seg.sourceId,
          findPointLast scene.points seg.targetId with
    | some p1, some p2 =>
        let pr1 := project rotation scale p1 width height
        let pr2 := project rotation scale p2 width height
        some ⟨pr1.x, pr1.y, pr2.x, pr2.y, seg.dashed⟩
    | _, _ => none)

/-- The dots the point layer of `draw` emits (GeometryCanvas.tsx lines
424-447, with no active detail selection): one dot per scene point, at the
projected position stored in the map for its id. -/
noncomputable def pointDots (scene : GeometryScene) (rotation : Rotation)
    (scale width height : ℝ) : List Projected :=
  scene.points.filterMap (fun p =>
    (findPointLast scene.points p.id).map
      (fun q => project rotation scale q width height))

lemma length_filterMap_of_isSome {α β : Type} (l : List α) (f : α → Option β)
    (h : ∀ x ∈ l, (f x).isSome) : (l.filterMap f).length = l.length := by
  induction l with
  | nil => simp
  | cons a as ih =>
      obtain ⟨b, hb⟩ := Option.isSome_iff_exists.mp (h a (by simp))
      simp [hb, ih (fun x hx => h x (by simp [hx]))]

lemma findPointLast_isSome_of_mem (pts : List Point3D) (p : Point3D)
    (hp : p ∈ pts) : (findPointLast pts p.id).isSome := by
  cases hlast : findPointLast pts p.id with
  | some q => rfl
  | none =>
      exact absurd rfl ((findPointLast_eq_none_iff pts p.id).mp hlast p hp)

/-- Claim C9: a segment whose sourceId or targetId matches no scene point id is
silently skipped by the draw pass — the emitted lines are exactly those of the
scene without it — while every scene point still gets its dot. -/
theorem dangling_segment_skipped (scene : GeometryScene) (seg : LineSegment)
    (rotation : Rotation) (scale width height : ℝ)
    (pre post : List LineSegment)
    (hsegs : scene.segments = pre ++ seg :: post)
    (hdangling : (∀ p ∈ scene.points, p.id ≠ seg.sourceId) ∨
                 (∀ p ∈ scene.points, p.id ≠ seg.targetId)) :
    segmentLines scene rotation scale width height =
      segmentLines ⟨scene.points, pre ++ post⟩ rotation scale width height ∧
    (pointDots scene rotation scale width height).length =
      scene.points.length := by
  constructor
  · unfold segmentLines
    simp only [hsegs, List.filterMap_append, List.filterMap_cons]
    rcases hdangling with hd | hd
    · rw [(findPointLast_eq_none_iff scene.points seg.sourceId).mpr hd]
    · rw [(findPointLast_eq_none_iff scene.points seg.targetId).mpr hd]
      cases findPointLast scene.points seg.sourceId <;> rfl
  · exact length_filterMap_of_isSome scene.points _
      (fun p hp => by
        have := findPointLast_isSome_of_mem scene.points p hp
        simpa [Option.isSome_map] using this)

/-- Witness for C9: a scene with one point "A" and a single segment whose
target "B" is dangling draws the same lines as the scene without the segment,
and still draws the dot of "A". -/
theorem dangling_segment_skipped_witness :
    segmentLines ⟨[⟨"A", 0, 0, 0, none⟩], [⟨"A", "B", false⟩]⟩ ⟨0, 0⟩ 100 800 600 =
      segmentLines ⟨[⟨"A", 0, 0, 0, none⟩], []⟩ ⟨0, 0⟩ 100 800 600 ∧
    (pointDots ⟨[⟨"A", 0, 0, 0, none⟩], [⟨"A", "B", false⟩]⟩ ⟨0, 0⟩ 100 800 600).length = 1 :=
  dangling_segment_skipped ⟨[⟨"A", 0, 0, 0, none⟩], [⟨"A", "B", false⟩]⟩
    ⟨"A", "B", false⟩ ⟨0, 0⟩ 100 800 600 [] [] rfl
    (Or.inr (by intro p hp; simp at hp; subst hp; decide))

lemma project_zIndex (rotation : Rotation) (scale : ℝ) (p : Point3D)
    (width height : ℝ) :
    (project rotation scale p width height).zIndex =
      p.y * Real.sin rotation.x +
        (p.x * Real.sin rotation.y + p.z * Real.cos rotation.y) * Real.cos rotation.x :=
  rfl

lemma project_x_eq (rotation : Rotation) (scale : ℝ) (p : Point3D)
    (width height : ℝ) :
    (project rotation scale p width height).x =
      (p.x * Real.cos rotation.y - p.z * Real.sin rotation.y) *
        (scale / (4 - (project rotation scale p width height).zIndex * 0.1)) +
        width / 2 :=
  rfl

lemma project_y_eq (rotation : Rotation) (scale : ℝ) (p : Point3D)
    (width height : ℝ) :
    (project rotation scale p width height).y =
      -(p.y * Real.cos rotation.x -
          (p.x * Real.sin rotation.y + p.z * Real.cos rotation.y) * Real.sin rotation.x) *
        (scale / (4 - (project rotation scale p width height).zIndex * 0.1)) +
        height / 2 :=
  rfl

lemma rotated_depth_sq_le (rotation : Rotation) (scale : ℝ) (p : Point3D)
    (width height : ℝ) :
    (project rotation scale p width height).zIndex ^ 2 ≤
      p.x ^ 2 + p.y ^ 2 + p.z ^ 2 := by
  rw [project_zIndex]
  have hy := Real.sin_sq_add_cos_sq rotation.y
  have hx := Real.sin_sq_add_cos_sq rotation.x
  nlinarith [sq_nonneg (p.x * Real.cos rotation.y - p.z * Real.sin rotation.y),
    sq_nonneg (p.y * Real.cos rotation.x -
      (p.x * Real.sin rotation.y + p.z * Real.cos rotation.y) * Real.sin rotation.x),
    sq_nonneg (p.x * Real.sin rotation.y + p.z * Real.cos rotation.y)]

/-- Claim C10: for every camera state and every point with Euclidean norm
strictly below 40, the rotated depth z satisfies `z * 0.1 < 4`, so the
weak-perspective denominator `4 - z * 0.1` of `project` is strictly positive. -/
theorem expected_range_denominator_pos (rotation : Rotation) (scale : ℝ)
    (p : Point3D) (width height : ℝ)
    (h : Real.sqrt (p.x ^ 2 + p.y ^ 2 + p.z ^ 2) < 40) :
    (project rotation scale p width height).zIndex * 0.1 < 4 ∧
    0 < 4 - (project rotation scale p width height).zIndex * 0.1 := by
  have h0 : (0 : ℝ) ≤ p.x ^ 2 + p.y ^ 2 + p.z ^ 2 := by positivity
  have hS : p.x ^ 2 + p.y ^ 2 + p.z ^ 2 < 1600 := by
    nlinarith [Real.sq_sqrt h0, Real.sqrt_nonneg (p.x ^ 2 + p.y ^ 2 + p.z ^ 2)]
  have hz := rotated_depth_sq_le rotation scale p width height
  constructor
  · nlinarith
  · nlinarith

/-- Witness for C10 at the point (1,2,3) and a concrete camera. -/
theorem expected_range_denominator_pos_witness :
    (project ⟨-0.5, 0.5⟩ 100 ⟨"P", 1, 2, 3, none⟩ 800 600).zIndex * 0.1 < 4 ∧
    0 < 4 - (project ⟨-0.5, 0.5⟩ 100 ⟨"P", 1, 2, 3, none⟩ 800 600).zIndex * 0.1 :=
  expected_range_denominator_pos ⟨-0.5, 0.5⟩ 100 ⟨"P", 1, 2, 3, none⟩ 800 600
    (by
      have : ((1 : ℝ) ^ 2 + 2 ^ 2 + 3 ^ 2) < 40 ^ 2 := by norm_num
      calc Real.sqrt ((1 : ℝ) ^ 2 + 2 ^ 2 + 3 ^ 2) < 40 :=
        (Real.sqrt_lt' (by norm_num)).mpr this)

/-- The pixel distance from the click position `(cx, cy)` to the projected
screen position of a point (GeometryCanvas.tsx lines 591-594). -/
noncomputable def clickDist (rotation : Rotation) (scale width height cx cy : ℝ)
    (p : Point3D) : ℝ :=
  let proj := project rotation scale p width height
  let dx := cx - proj.x
  let dy := cy - proj.y
  Real.sqrt (dx * dx + dy * dy)

/-- One step of the hit-test fold (lines 596-599): a point strictly closer than
the current minimum becomes the new closest candidate. -/
noncomputable def hitTestStep (rotation : Rotation) (scale width height cx cy : ℝ)
    (acc : Option String × ℝ) (p : Point3D) : Option String × ℝ :=
  let dist := clickDist rotation scale width height cx cy p
  if dist < acc.2 then (some p.id, dist) else acc

/-- The hit test of `handleCanvasClick` (lines 584-600): fold over the scene
points with `closestId` starting at null and `minDist` at the 20 px radius. -/
noncomputable def hitTest (rotation : Rotation) (scale : ℝ) (pts : List Point3D)
    (width height cx cy : ℝ) : Option String × ℝ :=
  pts.foldl (hitTestStep rotation scale width height cx cy) (none, 20)

/-- The full click handler (lines 576-620): run the hit test, then apply the
mode-dependent selection update. -/
noncomputable def handleCanvasClick (rotation : Rotation) (scale : ℝ)
    (scene : GeometryScene) (width height cx cy : ℝ) (s : UIState) : UIState :=
  stepUI s (.click (hitTest rotation scale scene.points width height cx cy).1)

lemma hitTest_foldl_spec (rotation : Rotation) (scale width height cx cy : ℝ)
    (pts : List Point3D) :
    ∀ acc : Option String × ℝ,
      (pts.foldl (hitTestStep rotation scale width height cx cy) acc).2 ≤ acc.2 ∧
      (∀ q ∈ pts,
        (pts.foldl (hitTestStep rotation scale width height cx cy) acc).2 ≤
          clickDist rotation scale width height cx cy q) ∧
      (pts.foldl (hitTestStep rotation scale width height cx cy) acc = acc ∨
        ∃ p ∈ pts,
          (pts.foldl (hitTestStep rotation scale width height cx cy) acc).1 = some p.id ∧
          (pts.foldl (hitTestStep rotation scale width height cx cy) acc).2 =
            clickDist rotation scale width height cx cy p ∧
          (pts.foldl (hitTestStep rotation scale width height cx cy) acc).2 < acc.2) := by
  induction pts with
  | nil => intro acc; exact ⟨le_refl _, by simp, Or.inl rfl⟩
  | cons p rest ih =>
      intro acc
      obtain ⟨ih1, ih2, ih3⟩ := ih (hitTestStep rotation scale width height cx cy acc p)
      by_cases hlt : clickDist rotation scale width height cx cy p < acc.2
      · have hstep : hitTestStep rotation scale width height cx cy acc p =
            (some p.id, clickDist rotation scale width height cx cy p) := by
          simp [hitTestStep, hlt]
        rw [hstep] at ih1 ih2 ih3
        refine ⟨?_, ?_, ?_⟩
        · simpa [hstep] using le_trans (by simpa using ih1) (le_of_lt hlt)
        · intro q hq
          rcases List.mem_cons.mp hq with hq | hq
          · subst hq; simpa [hstep] using ih1
          · simpa [hstep] using ih2 q hq
        · rcases ih3 with heq | ⟨p', hp', h1, h2, h3⟩
          · refine Or.inr ⟨p, by simp, ?_, ?_, ?_⟩
            · simp [List.foldl_cons, hstep, heq]
            · simp [List.foldl_cons, hstep, heq]
            · simpa [List.foldl_cons, hstep, heq] using hlt
          · refine Or.inr ⟨p', by simp [hp'], ?_, ?_, ?_⟩
            · simpa [hstep] using h1
            · simpa [hstep] using h2
            · have : (rest.foldl (hitTestStep rotation scale width height cx cy)
                  (some p.id, clickDist rotation scale width height cx cy p)).2 <
                  clickDist rotation scale width height cx cy p := by simpa using h3
              simpa [hstep] using lt_trans this hlt
      · have hstep : hitTestStep rotation scale width height cx cy acc p = acc := by
          simp [hitTestStep, hlt]
        rw [hstep] at ih1 ih2 ih3
        refine ⟨?_, ?_, ?_⟩
        · simpa [hstep] using ih1
        · intro q hq
          rcases List.mem_cons.mp hq with hq | hq
          · subst hq
            exact le_trans (by simpa [hstep] using ih1) (not_lt.mp hlt)
          · simpa [hstep] using ih2 q hq
        · rcases ih3 with heq | ⟨p', hp', h1, h2, h3⟩
          · exact Or.inl (by simpa [hstep] using heq)
          · exact Or.inr ⟨p', by simp [hp'],
              by simpa [hstep] using h1,
              by simpa [hstep] using h2,
              by simpa [hstep] using h3⟩

/-- Claim C7: the hit test projects every scene point with the current camera
and viewport, returns null exactly when no point is strictly within 20 px of
the click, otherwise a point at minimum pixel distance among all scene points
(strictly below 20 px); an empty-space click clears the selection in detail
mode and leaves the whole state unchanged in measurement mode. -/
theorem hit_test_click (rotation : Rotation) (scale : ℝ) (scene : GeometryScene)
    (width height cx cy : ℝ) (s : UIState) (i : String) :
    ((hitTest rotation scale scene.points width height cx cy).1 = none ↔
      ∀ p ∈ scene.points,
        ¬ (clickDist rotation scale width height cx cy p < 20)) ∧
    ((hitTest rotation scale scene.points width height cx cy).1 = some i →
      ∃ p ∈ scene.points, p.id = i ∧
        clickDist rotation scale width height cx cy p < 20 ∧
        ∀ q ∈ scene.points,
          clickDist rotation scale width height cx cy p ≤
            clickDist rotation scale width height cx cy q) ∧
    ((hitTest rotation scale scene.points width height cx cy).1 = none →
      (s.isMeasurementMode = false →
        handleCanvasClick rotation scale scene width height cx cy s =
          { s with selectedPointId := none }) ∧
      (s.isMeasurementMode = true →
        handleCanvasClick rotation scale scene width height cx cy s = s)) := by
  obtain ⟨h1, h2, h3⟩ :=
    hitTest_foldl_spec rotation scale width height cx cy scene.points (none, 20)
  have hht : hitTest rotation scale scene.points width height cx cy =
      scene.points.foldl (hitTestStep rotation scale width height cx cy) (none, 20) := rfl
  refine ⟨⟨?_, ?_⟩, ?_, ?_⟩
  · intro hnone q hq hqlt
    rcases h3 with heq | ⟨p, hp, hp1, hp2, hp3⟩
    · have hle := h2 q hq
      rw [heq] at hle
      simp only at hle
      linarith
    · rw [← hht] at hp1
      rw [hnone] at hp1
      exact Option.noConfusion hp1
  · intro hall
    rcases h3 with heq | ⟨p, hp, hp1, hp2, hp3⟩
    · rw [hht, heq]
    · rw [← hht] at hp2 hp3
      exact absurd (hp2 ▸ hp3) (hall p hp)
  · intro hsome
    rcases h3 with heq | ⟨p, hp, hp1, hp2, hp3⟩
    · rw [hht, heq] at hsome
      exact Option.noConfusion hsome
    · rw [← hht] at hp1 hp2 hp3
      rw [hsome] at hp1
      refine ⟨p, hp, (Option.some_injective _ hp1).symm, ?_, ?_⟩
      · rw [← hp2]; exact hp3
      · intro q hq
        rw [← hp2]
        rw [← hht] at h2
        exact h2 q hq
  · intro hnone
    constructor
    · intro hm
      unfold handleCanvasClick
      rw [hnone]
      simp [stepUI, hm]
    · intro hm
      unfold handleCanvasClick
      rw [hnone]
      simp [stepUI, hm]

/-- Witness for C7: clicking the empty scene hits nothing and, in detail mode,
clears the selection. -/
theorem hit_test_click_witness :
    handleCanvasClick ⟨0, 0⟩ 100 ⟨[], []⟩ 800 600 10 10 ⟨false, some "A", []⟩ =
      ⟨false, none, []⟩ :=
  ((hit_test_click ⟨0, 0⟩ 100 ⟨[], []⟩ 800 600 10 10 ⟨false, some "A", []⟩ "Z").2.2
    rfl).1 rfl

/-- The rotated x coordinate `project` computes before the perspective step. -/
noncomputable def rotX (rotation : Rotation) (p : Point3D) : ℝ :=
  p.x * Real.cos rotation.y - p.z * Real.sin rotation.y

/-- The rotated y coordinate `project` computes before the perspective step. -/
noncomputable def rotY (rotation : Rotation) (p : Point3D) : ℝ :=
  p.y * Real.cos rotation.x -
    (p.x * Real.sin rotation.y + p.z * Real.cos rotation.y) * Real.sin rotation.x

/-- The rotated z (depth) coordinate `project` computes. -/
noncomputable def rotZ (rotation : Rotation) (p : Point3D) : ℝ :=
  p.y * Real.sin rotation.x +
    (p.x * Real.sin rotation.y + p.z * Real.cos rotation.y) * Real.cos rotation.x

lemma project_zIndex_rotZ (rotation : Rotation) (scale : ℝ) (p : Point3D)
    (width height : ℝ) :
    (project rotation scale p width height).zIndex = rotZ rotation p := rfl

lemma project_x_rotX (rotation : Rotation) (scale : ℝ) (p : Point3D)
    (width height : ℝ) :
    (project rotation scale p width height).x =
      rotX rotation p * (scale / (4 - rotZ rotation p * 0.1)) + width / 2 := rfl

lemma project_y_rotY (rotation : Rotation) (scale : ℝ) (p : Point3D)
    (width height : ℝ) :
    (project rotation scale p width height).y =
      -(rotY rotation p) * (scale / (4 - rotZ rotation p * 0.1)) + height / 2 := rfl

/-- The pixel distance between the projected screen positions of two points:
the quantity the spec's zoom-monotonicity property speaks about. -/
noncomputable def projDist (rotation : Rotation) (scale : ℝ) (p q : Point3D)
    (width height : ℝ) : ℝ :=
  Real.sqrt (((project rotation scale p width height).x -
      (project rotation scale q width height).x) ^ 2 +
    ((project rotation scale p width height).y -
      (project rotation scale q width height).y) ^ 2)

lemma rot_inj_aux (cy sy cx sx dx dy dz : ℝ)
    (hEy : sy ^ 2 + cy ^ 2 = 1) (hEx : sx ^ 2 + cx ^ 2 = 1)
    (hA : dx * cy - dz * sy = 0)
    (hB : dy * cx - (dx * sy + dz * cy) * sx = 0)
    (hC : dy * sx + (dx * sy + dz * cy) * cx = 0) :
    dx = 0 ∧ dy = 0 ∧ dz = 0 := by
  have hdy : dy = 0 := by linear_combination cx * hB + sx * hC - dy * hEx
  have hdz1 : dx * sy + dz * cy = 0 := by
    linear_combination (-sx) * hB + cx * hC - (dx * sy + dz * cy) * hEx
  have hdx : dx = 0 := by linear_combination cy * hA + sy * hdz1 - dx * hEy
  have hdz : dz = 0 := by linear_combination (-sy) * hA + cy * hdz1 - dz * hEy
  exact ⟨hdx, hdy, hdz⟩

/-- Counterexample to C8 as stated: the distinct points (0,0,40) and (1,0,40)
have equal rotated depth 40 under the zero rotation, where the weak-perspective
denominator `4 - z * 0.1` vanishes; their projected pixel distance is then not
strictly increasing between the in-range scales 20 and 500. -/
theorem zoom_monotone_counterexample :
    (project ⟨0, 0⟩ 20 ⟨"P", 0, 0, 40, none⟩ 800 600).zIndex =
      (project ⟨0, 0⟩ 20 ⟨"Q", 1, 0, 40, none⟩ 800 600).zIndex ∧
    (⟨"P", 0, 0, 40, none⟩ : Point3D).x ≠ (⟨"Q", 1, 0, 40, none⟩ : Point3D).x ∧
    (20 : ℝ) < 500 ∧
    ¬ (projDist ⟨0, 0⟩ 20 ⟨"P", 0, 0, 40, none⟩ ⟨"Q", 1, 0, 40, none⟩ 800 600 <
       projDist ⟨0, 0⟩ 500 ⟨"P", 0, 0, 40, none⟩ ⟨"Q", 1, 0, 40, none⟩ 800 600) := by
  refine ⟨?_, by norm_num, by norm_num, ?_⟩
  · simp [project_zIndex_rotZ, rotZ]
  · have hd : projDist ⟨0, 0⟩ 20 ⟨"P", 0, 0, 40, none⟩ ⟨"Q", 1, 0, 40, none⟩ 800 600 =
        projDist ⟨0, 0⟩ 500 ⟨"P", 0, 0, 40, none⟩ ⟨"Q", 1, 0, 40, none⟩ 800 600 := by
      simp [projDist, project, Real.cos_zero, Real.sin_zero]
      norm_num
    rw [hd]
    exact lt_irrefl _

/-- Claim C8 amended: for two points with distinct world coordinates, equal
rotated depth, and rotated depth not equal to 40 (so the weak-perspective
denominator is nonzero), the pixel distance between their projections is
strictly increasing in the zoom scale over the clamp range `[20, 500]`. -/
theorem zoom_monotone_amended (rotation : Rotation) (p q : Point3D)
    (width height s1 s2 : ℝ)
    (hz : (project rotation s1 p width height).zIndex =
          (project rotation s1 q width height).zIndex)
    (hz40 : (project rotation s1 p width height).zIndex ≠ 40)
    (hpq : ¬ (p.x = q.x ∧ p.y = q.y ∧ p.z = q.z))
    (hs1 : 20 ≤ s1) (h12 : s1 < s2) (hs2 : s2 ≤ 500) :
    projDist rotation s1 p q width height <
      projDist rotation s2 p q width height := by
  rw [project_zIndex_rotZ, project_zIndex_rotZ] at hz
  rw [project_zIndex_rotZ] at hz40
  have hD : (4 : ℝ) - rotZ rotation p * 0.1 ≠ 0 := by
    intro h; exact hz40 (by linarith)
  have key : ∀ s : ℝ, projDist rotation s p q width height =
      |s| / |4 - rotZ rotation p * 0.1| *
        Real.sqrt ((rotX rotation p - rotX rotation q) ^ 2 +
          (rotY rotation p - rotY rotation q) ^ 2) := by
    intro s
    unfold projDist
    rw [project_x_rotX rotation s p, project_x_rotX rotation s q,
        project_y_rotY rotation s p, project_y_rotY rotation s q, ← hz]
    have harg :
        (rotX rotation p * (s / (4 - rotZ rotation p * 0.1)) + width / 2 -
            (rotX rotation q * (s / (4 - rotZ rotation p * 0.1)) + width / 2)) ^ 2 +
          (-(rotY rotation p) * (s / (4 - rotZ rotation p * 0.1)) + height / 2 -
            (-(rotY rotation q) * (s / (4 - rotZ rotation p * 0.1)) + height / 2)) ^ 2 =
        (s / (4 - rotZ rotation p * 0.1)) ^ 2 *
          ((rotX rotation p - rotX rotation q) ^ 2 +
            (rotY rotation p - rotY rotation q) ^ 2) := by ring
    rw [harg, Real.sqrt_mul (sq_nonneg _), Real.sqrt_sq_eq_abs, abs_div]
  have hNpos : 0 < (rotX rotation p - rotX rotation q) ^ 2 +
      (rotY rotation p - rotY rotation q) ^ 2 := by
    rcases lt_or_eq_of_le
        (by positivity : (0 : ℝ) ≤ (rotX rotation p - rotX rotation q) ^ 2 +
          (rotY rotation p - rotY rotation q) ^ 2) with h | h
    · exact h
    · exfalso
      have hA2 : (rotX rotation p - rotX rotation q) ^ 2 = 0 := by
        nlinarith [sq_nonneg (rotY rotation p - rotY rotation q)]
      have hB2 : (rotY rotation p - rotY rotation q) ^ 2 = 0 := by
        nlinarith [sq_nonneg (rotX rotation p - rotX rotation q)]
      have hA0 : rotX rotation p - rotX rotation q = 0 :=
        (pow_eq_zero_iff two_ne_zero).mp hA2
      have hB0 : rotY rotation p - rotY rotation q = 0 :=
        (pow_eq_zero_iff two_ne_zero).mp hB2
      simp only [rotX, rotY] at hA0 hB0
      simp only [rotZ] at hz
      obtain ⟨hdx, hdy, hdz⟩ := rot_inj_aux (Real.cos rotation.y)
        (Real.sin rotation.y) (Real.cos rotation.x) (Real.sin rotation.x)
        (p.x - q.x) (p.y - q.y) (p.z - q.z)
        (Real.sin_sq_add_cos_sq rotation.y) (Real.sin_sq_add_cos_sq rotation.x)
        (by linear_combination hA0) (by linear_combination hB0)
        (by linear_combination hz)
      exact hpq ⟨by linarith, by linarith, by linarith⟩
  rw [key s1, key s2]
  rw [abs_of_nonneg (by linarith : (0 : ℝ) ≤ s1),
      abs_of_nonneg (by linarith : (0 : ℝ) ≤ s2)]
  exact mul_lt_mul_of_pos_right
    ((div_lt_div_iff_of_pos_right (abs_pos.mpr hD)).mpr h12)
    (Real.sqrt_pos.mpr hNpos)

/-- Witness for the amended C8 at concrete inputs: zooming from 20 to 500
strictly increases the projected distance between (0,0,0) and (1,0,0). -/
theorem zoom_monotone_amended_witness :
    projDist ⟨0, 0⟩ 20 ⟨"P", 0, 0, 0, none⟩ ⟨"Q", 1, 0, 0, none⟩ 800 600 <
      projDist ⟨0, 0⟩ 500 ⟨"P", 0, 0, 0, none⟩ ⟨"Q", 1, 0, 0, none⟩ 800 600 :=
  zoom_monotone_amended ⟨0, 0⟩ ⟨"P", 0, 0, 0, none⟩ ⟨"Q", 1, 0, 0, none⟩ 800 600 20 500
    (by simp [project_zIndex_rotZ, rotZ])
    (by simp [project_zIndex_rotZ, rotZ])
    (by intro h; exact absurd h.1 (by norm_num))
    (by norm_num) (by norm_num) (by norm_num)

end GeoMind
